import Mathlib

/-!
Shallow embedding of the critical-packages build pipeline
(src/unnamed/part_000 of the ecosyste-ms/critical repository).

The JavaScript source is embedded as pure Lean functions:

* network I/O (the global fetch in fetchJson) is abstracted as an
  explicit source/oracle function supplied by the caller; an HTTP or
  network failure is an Except.error carrying a TransportError;
* the unbounded while-loop of fetchAllCriticalPackages is given an
  explicit fuel argument (the real loop terminates exactly when some
  page is empty, which corresponds to sufficient fuel here);
* the SQLite database is a record of lists of rows; INSERT OR REPLACE
  removes every row conflicting on the statement's unique keys before
  appending the new row (bag-of-rows semantics: the list order of a
  table is not observable);
* awaited sleeps are not executed but counted, so that the rate-limit
  behaviour of the loop is visible in the result.
-/

namespace Critical

/-- Error thrown by fetchJson: non-success HTTP status or network failure. -/
structure TransportError where
  message : String
deriving DecidableEq, Repr

/-- Equality of Except values is decidable when both component types have
decidable equality (used to evaluate concrete fetch outcomes). -/
instance {ε α : Type} [DecidableEq ε] [DecidableEq α] : DecidableEq (Except ε α) := fun
  | .ok a, .ok b => decidable_of_iff (a = b) (by simp)
  | .error a, .error b => decidable_of_iff (a = b) (by simp)
  | .ok _, .error _ => isFalse (fun h => Except.noConfusion h)
  | .error _, .ok _ => isFalse (fun h => Except.noConfusion h)

/-- Result of a full pagination run: the outcome of the loop body together
with the number of fetchJson calls made and the number of sleep delays
awaited.  The record type of a page element is a type parameter because the
JavaScript loop only concatenates the decoded JSON arrays. -/
structure FetchOutcome (α : Type) where
  result : Except TransportError (List α)
  requests : Nat
  sleeps : Nat
deriving DecidableEq, Repr

/-- Loop body of fetchAllCriticalPackages.  One iteration requests page
number `page` from the source; an error propagates out of the loop, an
empty batch breaks out of the loop returning the accumulator, and a
non-empty batch is appended to the accumulator, the page number is
incremented and one rate-limit sleep is awaited before the next iteration.
Fuel 0 means the run was not observed to terminate. -/
def fetchPagesGo {α : Type} (src : Nat → Except TransportError (List α)) :
    Nat → Nat → List α → Nat → Nat → Option (FetchOutcome α)
  | 0, _, _, _, _ => none
  | fuel + 1, page, acc, reqs, sleeps =>
    match src page with
    | .error e => some ⟨.error e, reqs + 1, sleeps⟩
    | .ok batch =>
      if batch.isEmpty then some ⟨.ok acc, reqs + 1, sleeps⟩
      else fetchPagesGo src fuel (page + 1) (acc ++ batch) (reqs + 1) (sleeps + 1)

/-- fetchAllCriticalPackages: paginate over GET /packages/critical
starting at page 1 with an empty accumulator and no requests or sleeps
performed yet. -/
def fetchAllCriticalPackages {α : Type} (src : Nat → Except TransportError (List α))
    (fuel : Nat) : Option (FetchOutcome α) :=
  fetchPagesGo src fuel 1 [] 0 0

/-- Model of the JavaScript String.prototype.toLowerCase call used on
ecosystem names: lower-case every character (the registry table's keys are
all ASCII, where Char.toLower agrees with the JavaScript conversion). -/
def jsToLowerCase (s : String) : String :=
  ⟨s.data.map Char.toLower⟩

/-- The fixed ecosystem-to-registry table: the own properties of the
object literal in ecosystemToRegistry, in source order. -/
def registryMap : List (String × String) :=
  [("npm", "npmjs.org"),
   ("pypi", "pypi.org"),
   ("rubygems", "rubygems.org"),
   ("go", "proxy.golang.org"),
   ("cargo", "crates.io"),
   ("maven", "repo1.maven.org"),
   ("nuget", "nuget.org"),
   ("packagist", "packagist.org"),
   ("hex", "hex.pm"),
   ("pub", "pub.dev"),
   ("hackage", "hackage.haskell.org"),
   ("cocoapods", "cocoapods.org"),
   ("conda", "anaconda.org"),
   ("clojars", "clojars.org"),
   ("puppet", "forge.puppet.com"),
   ("homebrew", "formulae.brew.sh")]

/-- Property names that a plain JavaScript object literal inherits from
Object.prototype.  A bracket lookup map[key] on the literal returns the
inherited member (a function or object, hence truthy) for these keys even
though they are not own properties of the literal. -/
def objectPrototypeKeys : List String :=
  ["constructor", "hasOwnProperty", "isPrototypeOf", "propertyIsEnumerable",
   "toLocaleString", "toString", "valueOf", "__defineGetter__",
   "__defineSetter__", "__lookupGetter__", "__lookupSetter__", "__proto__"]

/-- Value produced by the map[key] lookup in ecosystemToRegistry when it is
truthy: either an own entry of the table (a registry host string) or a
member inherited from Object.prototype (a truthy non-string value, kept by
the trailing short-circuit or-null). -/
inductive RegistryRef where
  | str : String → RegistryRef
  | inherited : String → RegistryRef
deriving DecidableEq, Repr

/-- ecosystemToRegistry: lower-case the ecosystem name and look it up in
the object literal; a truthy result (own entry or inherited
Object.prototype member) is returned as is, anything else becomes null. -/
def ecosystemToRegistry (ecosystem : String) : Option RegistryRef :=
  let key := jsToLowerCase ecosystem
  match registryMap.lookup key with
  | some v => some (.str v)
  | none => if key ∈ objectPrototypeKeys then some (.inherited key) else none

/-- fetchVersionNumbers: resolve the ecosystem to a registry; a null
registry short-circuits to an empty list with no request made; otherwise
one request is made (the oracle models fetchJson on the version_numbers
URL built from the registry and the URL-encoded name) and any failure is
swallowed into an empty list by the try/catch.  The second component
counts the fetchJson calls made. -/
def fetchVersionNumbers (oracle : RegistryRef → String → Except TransportError (List String))
    (ecosystem name : String) : List String × Nat :=
  match ecosystemToRegistry ecosystem with
  | none => ([], 0)
  | some registry =>
    match oracle registry name with
    | .ok versions => (versions, 1)
    | .error _ => ([], 1)

/-- An upstream package record as consumed by insertPackage and the build
loop.  Absent JSON fields are none (the upstream API sends explicit nulls;
fields are bound positionally by the prepared statement).  Structured
pieces: normalized_licenses is the JSON array that gets stringified,
keywords_array the keyword array that gets space-joined (none models a
value that is not an array), repo_metadata/host/advisories feed the other
insert helpers. -/
structure AdvisoryInput where
  uuid : Option String := none
  url : Option String := none
  title : Option String := none
  description : Option String := none
  severity : Option String := none
  published_at : Option String := none
  cvss_score : Option Rat := none
deriving DecidableEq, Repr

/-- Repository metadata object of an upstream record (repo_metadata). -/
structure RepoMetadataInput where
  owner : Option String := none
  name : Option String := none
  full_name : Option String := none
  language : Option String := none
  stargazers_count : Option Int := none
  forks_count : Option Int := none
  open_issues_count : Option Int := none
  archived : Bool := false
  fork : Bool := false
deriving DecidableEq, Repr

/-- Host object of an upstream record (pkg.host); insertRepoMetadata reads
its name via the optional-chaining access host?.name. -/
structure HostInfo where
  name : Option String := none
deriving DecidableEq, Repr

structure PkgRecord where
  id : Int
  ecosystem : String
  name : String
  purl : Option String := none
  namespace_ : Option String := none
  description : Option String := none
  homepage : Option String := none
  repository_url : Option String := none
  licenses : Option String := none
  normalized_licenses : List String := []
  latest_release_number : Option String := none
  versions_count : Option Int := none
  downloads : Option Int := none
  downloads_period : Option String := none
  dependent_packages_count : Option Int := none
  dependent_repos_count : Option Int := none
  first_release_published_at : Option String := none
  latest_release_published_at : Option String := none
  last_synced_at : Option String := none
  keywords_array : Option (List String) := none
  repo_metadata : Option RepoMetadataInput := none
  host : Option HostInfo := none
  advisories : Option (List (Option AdvisoryInput)) := none
deriving DecidableEq, Repr

/-- A stored row of the packages table (the created_at column, filled by
the engine's DEFAULT CURRENT_TIMESTAMP and never bound by the insert
statement, is not modelled). -/
structure PkgRow where
  id : Int
  ecosystem : String
  name : String
  purl : Option String
  namespace_ : Option String
  description : Option String
  homepage : Option String
  repository_url : Option String
  licenses : Option String
  normalized_licenses : Option String
  latest_version : Option String
  versions_count : Option Int
  downloads : Option Int
  downloads_period : Option String
  dependent_packages_count : Option Int
  dependent_repos_count : Option Int
  first_release_at : Option String
  latest_release_at : Option String
  last_synced_at : Option String
  keywords : Option String
deriving DecidableEq, Repr

/-- JSON string escaping for the characters JSON.stringify always escapes
in the license names that occur here (backslash and double quote). -/
def jsonEscape (s : String) : String :=
  s.data.foldl
    (fun acc c =>
      if c = '\\' then acc ++ "\\\\"
      else if c = '"' then acc ++ "\\\""
      else acc.push c) ""

/-- JSON.stringify of the normalized_licenses array of strings. -/
def jsonStringifyStringList (l : List String) : String :=
  "[" ++ String.intercalate "," (l.map (fun s => "\"" ++ jsonEscape s ++ "\"")) ++ "]"

/-- Keyword serialization of insertPackage: a structured keyword array is
space-joined (Array.prototype.join with separator a single space); a value
that is not an array becomes null. -/
def serializeKeywords (keywords_array : Option (List String)) : Option String :=
  keywords_array.map (String.intercalate " ")

/-- Column values bound by the insertPackage prepared statement for an
upstream record, in schema order. -/
def packageRow (pkg : PkgRecord) : PkgRow :=
  { id := pkg.id
    ecosystem := pkg.ecosystem
    name := pkg.name
    purl := pkg.purl
    namespace_ := pkg.namespace_
    description := pkg.description
    homepage := pkg.homepage
    repository_url := pkg.repository_url
    licenses := pkg.licenses
    normalized_licenses := some (jsonStringifyStringList pkg.normalized_licenses)
    latest_version := pkg.latest_release_number
    versions_count := pkg.versions_count
    downloads := pkg.downloads
    downloads_period := pkg.downloads_period
    dependent_packages_count := pkg.dependent_packages_count
    dependent_repos_count := pkg.dependent_repos_count
    first_release_at := pkg.first_release_published_at
    latest_release_at := pkg.latest_release_published_at
    last_synced_at := pkg.last_synced_at
    keywords := serializeKeywords pkg.keywords_array }

/-- A stored advisories row.  The surrogate AUTOINCREMENT id column exists
only for storage convenience and carries no information, so it is not
modelled; rows are identified by the unique (package_id, uuid) index. -/
structure AdvRow where
  package_id : Int
  uuid : String
  url : Option String
  title : Option String
  description : Option String
  severity : Option String
  published_at : Option String
  cvss_score : Option Rat
deriving DecidableEq, Repr

/-- A stored repo_metadata row (package_id is the primary key). -/
structure RepoRow where
  package_id : Int
  owner : Option String
  repo_name : Option String
  full_name : Option String
  host : Option String
  language : Option String
  stargazers_count : Option Int
  forks_count : Option Int
  open_issues_count : Option Int
  archived : Int
  fork : Int
deriving DecidableEq, Repr

/-- The singleton build_info row (its id column is fixed to 1 by the CHECK
constraint, so only the payload columns are modelled). -/
structure BuildInfoRow where
  built_at : String
  package_count : Nat
  version_count : Nat
  advisory_count : Nat
deriving DecidableEq, Repr

/-- The database as a record of tables.  Lists model bags of rows: the
position of a row in a table is not observable through any query the
program performs. -/
structure Store where
  packages : List PkgRow := []
  versions : List (Int × String) := []
  advisories : List AdvRow := []
  repo_metadata : List RepoRow := []
  build_info : Option BuildInfoRow := none
deriving DecidableEq, Repr

def emptyStore : Store := {}

/-- Two packages rows conflict for INSERT OR REPLACE when they collide on
the id INTEGER PRIMARY KEY or on the unique (ecosystem, name) index. -/
def pkgConflict (r : PkgRow) (p : PkgRow) : Bool :=
  r.id == p.id || (r.ecosystem == p.ecosystem && r.name == p.name)

/-- insertPackage: INSERT OR REPLACE INTO packages — every existing row
conflicting with the new row on a unique key is replaced by the new row. -/
def insertPackage (db : Store) (pkg : PkgRecord) : Store :=
  { db with packages :=
      db.packages.filter (fun r => ! pkgConflict r (packageRow pkg)) ++ [packageRow pkg] }

/-- A SELECT on the packages table keyed by the unique (ecosystem, name)
index. -/
def lookupPackage (db : Store) (ecosystem name : String) : Option PkgRow :=
  db.packages.find? (fun r => r.ecosystem == ecosystem && r.name == name)

/-- The advisories row bound for an entry whose uuid check passed. -/
def advisoryRow (packageId : Int) (uuid : String) (a : AdvisoryInput) : AdvRow :=
  { package_id := packageId
    uuid := uuid
    url := a.url
    title := a.title
    description := a.description
    severity := a.severity
    published_at := a.published_at
    cvss_score := a.cvss_score }

/-- One INSERT OR REPLACE INTO advisories, keyed by the unique
(package_id, uuid) index. -/
def insertAdvisoryRow (db : Store) (packageId : Int) (uuid : String) (a : AdvisoryInput) : Store :=
  { db with advisories :=
      db.advisories.filter (fun r => ! (r.package_id == packageId && r.uuid == uuid)) ++
        [advisoryRow packageId uuid a] }

/-- Body of the for-loop of insertAdvisories: an entry that is null or
whose uuid is falsy (absent or the empty string) is skipped silently,
every other entry is written. -/
def insertAdvisoryStep (packageId : Int) (s : Store) (a? : Option AdvisoryInput) : Store :=
  match a? with
  | none => s
  | some a =>
    match a.uuid with
    | none => s
    | some u => if u = "" then s else insertAdvisoryRow s packageId u a

/-- insertAdvisories: a null/absent or empty list is a no-op; otherwise
the entries are processed in order by insertAdvisoryStep. -/
def insertAdvisories (db : Store) (packageId : Int)
    (advisories : Option (List (Option AdvisoryInput))) : Store :=
  match advisories with
  | none => db
  | some l =>
    if l.isEmpty then db
    else l.foldl (insertAdvisoryStep packageId) db

/-- insertVersions: a no-op on an empty list, otherwise one INSERT OR
REPLACE INTO versions per number, keyed by the (package_id, number)
composite primary key. -/
def insertVersions (db : Store) (packageId : Int) (versionNumbers : List String) : Store :=
  if versionNumbers.isEmpty then db
  else
    versionNumbers.foldl
      (fun s n =>
        { s with versions :=
            s.versions.filter (fun v => ! (v.1 == packageId && v.2 == n)) ++ [(packageId, n)] })
      db

/-- insertRepoMetadata: a no-op when the metadata object is absent;
otherwise INSERT OR REPLACE keyed by the package_id primary key, with the
boolean flags coerced to 0/1 and the host name read via host?.name. -/
def insertRepoMetadata (db : Store) (packageId : Int)
    (repoMetadata : Option RepoMetadataInput) (host : Option HostInfo) : Store :=
  match repoMetadata with
  | none => db
  | some m =>
    { db with repo_metadata :=
        db.repo_metadata.filter (fun r => ! (r.package_id == packageId)) ++
          [{ package_id := packageId
             owner := m.owner
             repo_name := m.name
             full_name := m.full_name
             host := host.bind HostInfo.name
             language := m.language
             stargazers_count := m.stargazers_count
             forks_count := m.forks_count
             open_issues_count := m.open_issues_count
             archived := if m.archived then 1 else 0
             fork := if m.fork then 1 else 0 }] }

/-- updateBuildInfo: INSERT OR REPLACE of the singleton build_info row
with the current table counts; builtAt stands for new Date().toISOString(). -/
def updateBuildInfo (db : Store) (builtAt : String) : Store :=
  let row : BuildInfoRow :=
    { built_at := builtAt
      package_count := db.packages.length
      version_count := db.versions.length
      advisory_count := db.advisories.length }
  { db with build_info := some row }

/-- The store-population phase of build, applied to an already fetched
catalog: one transaction inserting package, repo metadata and advisories
for every record in order, then (when fetchVersionsData) the version
rows of each package whose lookup yields a non-empty list, and finally
updateBuildInfo.  The enrichment phase runs lookups in batches of
CONCURRENCY = 10 but commits the per-package insertVersions calls in the
same catalog order, so the flat fold is the committed write sequence. -/
def buildStore (catalog : List PkgRecord)
    (oracle : RegistryRef → String → Except TransportError (List String))
    (fetchVersionsData : Bool) (builtAt : String) : Store :=
  let db1 := catalog.foldl
    (fun s p =>
      insertAdvisories (insertRepoMetadata (insertPackage s p) p.id p.repo_metadata p.host)
        p.id p.advisories)
    emptyStore
  let db2 :=
    if fetchVersionsData then
      catalog.foldl
        (fun s p =>
          let versions := (fetchVersionNumbers oracle p.ecosystem p.name).1
          if versions.length > 0 then insertVersions s p.id versions else s)
        db1
    else db1
  updateBuildInfo db2 builtAt

/-- A row of the packages_fts full-text virtual table: the (rowid,
ecosystem, name, description, keywords) projection of a packages row. -/
structure FtsRow where
  rowid : Int
  ecosystem : String
  name : String
  description : Option String
  keywords : Option String
deriving DecidableEq, Repr

/-- The projection the three triggers maintain: the columns of
packages_fts taken from a packages row. -/
def ftsProjection (r : PkgRow) : FtsRow :=
  { rowid := r.id
    ecosystem := r.ecosystem
    name := r.name
    description := r.description
    keywords := r.keywords }

/-- The packages table together with its packages_fts projection, as
maintained by the packages_ai / packages_ad / packages_au triggers. -/
structure FtsState where
  packages : List PkgRow := []
  packages_fts : List FtsRow := []
deriving DecidableEq, Repr

/-- The three mutation statements the engine can run against the packages
table, each of which fires the corresponding trigger. -/
inductive PkgMutation where
  | ins (row : PkgRow)
  | del (id : Int)
  | upd (id : Int) (row : PkgRow)
deriving Repr

/-- Apply one mutation of the packages table together with its trigger:
packages_ai appends the projection of the new row after an insert,
packages_ad removes the old row's projection by rowid after a delete, and
packages_au (which fires once for the row an UPDATE ... WHERE id matches,
hence only when such a row exists) removes the old projection and appends
the new one.  Pipeline code never touches packages_fts itself. -/
def applyMutation (s : FtsState) (m : PkgMutation) : FtsState :=
  match m with
  | .ins row =>
    { packages := s.packages ++ [row]
      packages_fts := s.packages_fts ++ [ftsProjection row] }
  | .del id =>
    { packages := s.packages.filter (fun r => ! (r.id == id))
      packages_fts := s.packages_fts.filter (fun f => ! (f.rowid == id)) }
  | .upd id row =>
    if s.packages.any (fun r => r.id == id) then
      { packages := s.packages.filter (fun r => ! (r.id == id)) ++ [row]
        packages_fts := s.packages_fts.filter (fun f => ! (f.rowid == id)) ++ [ftsProjection row] }
    else s

def applyMutations (s : FtsState) (ms : List PkgMutation) : FtsState :=
  ms.foldl applyMutation s

/-- Consistency of the derived full-text projection: packages_fts holds
exactly the projections of the packages rows. -/
def ftsConsistent (s : FtsState) : Prop :=
  s.packages_fts = s.packages.map ftsProjection

/-- Splitting of a character list at spaces, accumulating the current
token in reverse (the helper of fieldTokens; structural recursion so that
concrete searches evaluate). -/
def tokenizeChars : List Char → List Char → List String
  | [], cur => if cur.isEmpty then [] else [String.mk cur.reverse]
  | c :: rest, cur =>
    if c = ' ' then
      if cur.isEmpty then tokenizeChars rest []
      else String.mk cur.reverse :: tokenizeChars rest []
    else tokenizeChars rest (c :: cur)

/-- Tokens of one text column, for the full-text MATCH semantics of the
external engine: the column split at spaces (the keyword column is built
by a space-join, so its tokens are exactly the original keywords). -/
def fieldTokens (s : String) : List String :=
  tokenizeChars s.data []

/-- Tokens of a nullable text column (a null column yields no tokens). -/
def optFieldTokens (s : Option String) : List String :=
  match s with
  | none => []
  | some s => fieldTokens s

/-- All tokens a packages_fts row is indexed under (every fts5 column of
the row is searched by an unqualified MATCH query). -/
def ftsRowTokens (f : FtsRow) : List String :=
  fieldTokens f.ecosystem ++ fieldTokens f.name ++
    optFieldTokens f.description ++ optFieldTokens f.keywords

/-- A full-text MATCH query for a single token: the rowids of the fts rows
indexed under the token. -/
def ftsSearch (token : String) (fts : List FtsRow) : List Int :=
  (fts.filter (fun f => decide (token ∈ ftsRowTokens f))).map FtsRow.rowid

/-! ### Shared helper lemmas -/

/-- Searching with find? over a list all of whose elements fail the
predicate, followed by one element satisfying it, finds that element. -/
theorem find?_append_singleton {α : Type} (p : α → Bool) (l : List α) (x : α)
    (hl : ∀ y ∈ l, p y = false) (hx : p x = true) :
    List.find? p (l ++ [x]) = some x := by
  induction l with
  | nil => simp [List.find?_cons, hx]
  | cons a t ih =>
    have ha := hl a (List.mem_cons_self a t)
    simp only [List.cons_append, List.find?_cons, ha]
    exact ih fun y hy => hl y (List.mem_cons_of_mem a hy)

/-- A row surviving the replace-filter of insertPackage does not collide
with the inserted row on the (ecosystem, name) unique key. -/
theorem eco_name_beq_false_of_not_conflict {r p : PkgRow}
    (h : pkgConflict r p = false) : (r.ecosystem == p.ecosystem && r.name == p.name) = false := by
  unfold pkgConflict at h
  exact (Bool.or_eq_false_iff.mp h).2

/-- A row surviving the replace-filter of insertPackage does not collide
with the inserted row on the id primary key. -/
theorem id_beq_false_of_not_conflict {r p : PkgRow}
    (h : pkgConflict r p = false) : (r.id == p.id) = false := by
  unfold pkgConflict at h
  exact (Bool.or_eq_false_iff.mp h).1

/-- Round-trip of one upsert: the (ecosystem, name) lookup after
insertPackage returns exactly the row built from the record. -/
theorem lookup_insertPackage_self (db : Store) (pkg : PkgRecord) :
    lookupPackage (insertPackage db pkg) pkg.ecosystem pkg.name = some (packageRow pkg) := by
  unfold lookupPackage insertPackage
  apply find?_append_singleton
  · intro r hr
    rw [List.mem_filter] at hr
    have hc : pkgConflict r (packageRow pkg) = false := by
      simpa using hr.2
    exact eco_name_beq_false_of_not_conflict hc
  · simp [packageRow]

/-! ### C2: upsert round-trip -/

/-- C2: for every package record P, upsertPackage(P) followed by a lookup
keyed on (ecosystem, name) returns a stored record whose every column is
the one serialized from P (normalized-license list JSON-stringified,
latest version from the latest release number, keywords space-joined). -/
theorem upsert_roundtrip (db : Store) (pkg : PkgRecord) :
    lookupPackage (insertPackage db pkg) pkg.ecosystem pkg.name = some (packageRow pkg) :=
  lookup_insertPackage_self db pkg

/-! ### C3: full-row last-write-wins replacement -/

/-- C3: inserting two records with the same ID leaves exactly one row for
that ID, every column of which comes from the second record; re-running
the identical insert leaves the store unchanged (idempotence). -/
theorem reinsert_same_id_overwrites :
    (∀ (db : Store) (p1 p2 : PkgRecord), p1.id = p2.id →
      (insertPackage (insertPackage db p1) p2).packages.filter (fun r => r.id == p2.id) =
        [packageRow p2]) ∧
    (∀ (db : Store) (p : PkgRecord),
      insertPackage (insertPackage db p) p = insertPackage db p) := by
  constructor
  · intro db p1 p2 hid
    unfold insertPackage
    simp only [List.filter_append]
    have hrow1 : pkgConflict (packageRow p1) (packageRow p2) = true := by
      unfold pkgConflict packageRow
      simp [hid]
    have hmid : List.filter (fun r => ! pkgConflict r (packageRow p2)) [packageRow p1] = [] := by
      simp [hrow1]
    rw [hmid]
    have h2 : ((List.filter (fun r => ! pkgConflict r (packageRow p1)) db.packages).filter
        (fun r => ! pkgConflict r (packageRow p2))).filter (fun r => r.id == p2.id) = [] := by
      rw [List.filter_eq_nil_iff]
      intro r hr
      rw [List.mem_filter] at hr
      have hc : pkgConflict r (packageRow p2) = false := by simpa using hr.2
      simpa using id_beq_false_of_not_conflict hc
    rw [h2]
    simp [packageRow]
  · intro db p
    have hself : pkgConflict (packageRow p) (packageRow p) = true := by
      unfold pkgConflict
      simp
    have h3 : (List.filter (fun r => ! pkgConflict r (packageRow p)) db.packages ++
        [packageRow p]).filter (fun r => ! pkgConflict r (packageRow p)) =
        List.filter (fun r => ! pkgConflict r (packageRow p)) db.packages := by
      rw [List.filter_append, List.filter_filter]
      simp [hself]
    simp only [insertPackage]
    congr 1
    rw [h3]

/-- Concrete instance of C3: two upstream payloads sharing ID 7 with every
other field changed; the surviving row is entirely the second payload, and
repeating the first insert is a no-op. -/
def demoPkgA : PkgRecord :=
  { id := 7, ecosystem := "npm", name := "left-pad", description := some "old description",
    keywords_array := some ["pad"] }

def demoPkgB : PkgRecord :=
  { id := 7, ecosystem := "pypi", name := "leftpad", description := some "new description",
    licenses := some "MIT", keywords_array := none }

theorem reinsert_same_id_overwrites_witness :
    (insertPackage (insertPackage emptyStore demoPkgA) demoPkgB).packages.filter
        (fun r => r.id == demoPkgB.id) = [packageRow demoPkgB] ∧
    insertPackage (insertPackage emptyStore demoPkgA) demoPkgA = insertPackage emptyStore demoPkgA :=
  ⟨reinsert_same_id_overwrites.1 emptyStore demoPkgA demoPkgB rfl,
   reinsert_same_id_overwrites.2 emptyStore demoPkgA⟩

/-! ### C8: keyword serialization (corrected)

The claim says the stored keywords column is null whenever no keywords are
present in the input record.  The code stores null only when the record's
keywords_array is not an array; an empty keyword array — a record with no
keywords — is joined to the empty string and stored as such, not as null. -/

/-- A record whose keyword collection is present but empty: no keywords
are present in the input record. -/
def demoNoKeywordsPkg : PkgRecord :=
  { id := 3, ecosystem := "npm", name := "tiny", keywords_array := some [] }

/-- C8 counterexample: upserting a record with an empty keyword collection
stores the empty string in the keywords column, not null. -/
theorem keywords_empty_array_not_null :
    (lookupPackage (insertPackage emptyStore demoNoKeywordsPkg) "npm" "tiny").map
        PkgRow.keywords = some (some "") ∧
    (some "" : Option String) ≠ none := by
  constructor
  · rfl
  · simp

/-- C8 amended: upsertPackage stores the space-joined keyword string
whenever the record carries a keyword array (the empty array giving the
empty string), and stores null exactly when the record carries no keyword
array at all. -/
theorem keywords_column_serialization :
    (∀ (db : Store) (pkg : PkgRecord) (l : List String), pkg.keywords_array = some l →
      (lookupPackage (insertPackage db pkg) pkg.ecosystem pkg.name).map PkgRow.keywords =
        some (some (String.intercalate " " l))) ∧
    (∀ (db : Store) (pkg : PkgRecord), pkg.keywords_array = none →
      (lookupPackage (insertPackage db pkg) pkg.ecosystem pkg.name).map PkgRow.keywords =
        some none) := by
  constructor
  · intro db pkg l hl
    rw [lookup_insertPackage_self db pkg]
    simp [packageRow, serializeKeywords, hl]
  · intro db pkg hl
    rw [lookup_insertPackage_self db pkg]
    simp [packageRow, serializeKeywords, hl]

/-- Concrete instance of the amended C8: a two-keyword array is stored
space-joined, and a record without a keyword array stores null. -/
theorem keywords_column_serialization_witness :
    (lookupPackage (insertPackage emptyStore demoPkgA) demoPkgA.ecosystem demoPkgA.name).map
        PkgRow.keywords = some (some (String.intercalate " " ["pad"])) ∧
    (lookupPackage (insertPackage emptyStore demoPkgB) demoPkgB.ecosystem demoPkgB.name).map
        PkgRow.keywords = some none :=
  ⟨keywords_column_serialization.1 emptyStore demoPkgA ["pad"] rfl,
   keywords_column_serialization.2 emptyStore demoPkgB rfl⟩

/-! ### Pagination loop lemmas -/

/-- A run of the pagination loop over an error-free source: n consecutive
non-empty pages starting at `page` followed by an empty page collect the
pages in order, make n + 1 requests and sleep n times. -/
theorem fetchPagesGo_ok_run {α : Type} (pages : Nat → List α) :
    ∀ (n page : Nat) (acc : List α) (reqs sleeps fuel : Nat),
      n + 1 ≤ fuel →
      (∀ i, i < n → pages (page + i) ≠ []) →
      pages (page + n) = [] →
      fetchPagesGo (fun p => .ok (pages p)) fuel page acc reqs sleeps =
        some ⟨.ok (acc ++ (List.range' page n).flatMap pages), reqs + n + 1, sleeps + n⟩ := by
  intro n
  induction n with
  | zero =>
    intro page acc reqs sleeps fuel hfuel hne hend
    obtain ⟨f, rfl⟩ : ∃ f, fuel = f + 1 := ⟨fuel - 1, by omega⟩
    rw [Nat.add_zero] at hend
    simp [fetchPagesGo, hend]
  | succ n ih =>
    intro page acc reqs sleeps fuel hfuel hne hend
    obtain ⟨f, rfl⟩ : ∃ f, fuel = f + 1 := ⟨fuel - 1, by omega⟩
    have h0 : pages page ≠ [] := by
      have := hne 0 (Nat.succ_pos n)
      simpa using this
    have hrec := ih (page + 1) (acc ++ pages page) (reqs + 1) (sleeps + 1) f (by omega)
      (fun i hi => by
        have := hne (i + 1) (by omega)
        have harith : page + (i + 1) = page + 1 + i := by omega
        rwa [harith] at this)
      (by
        have harith : page + 1 + n = page + (n + 1) := by omega
        rw [harith]
        exact hend)
    simp only [fetchPagesGo]
    rw [if_neg (by simpa [List.isEmpty_iff] using h0)]
    rw [hrec]
    have hsplit : (List.range' page (n + 1)).flatMap pages =
        pages page ++ (List.range' (page + 1) n).flatMap pages := by
      rw [List.range'_succ, List.flatMap_cons]
    rw [hsplit]
    simp only [Option.some.injEq, FetchOutcome.mk.injEq, List.append_assoc]
    refine ⟨trivial, by omega, by omega⟩

/-- A run of the pagination loop that hits a transport error after n
consecutive non-empty pages: the error propagates out of the loop after
n + 1 requests and n sleeps, discarding the partial catalog. -/
theorem fetchPagesGo_error_run {α : Type} (src : Nat → Except TransportError (List α))
    (pages : Nat → List α) (e : TransportError) :
    ∀ (n page : Nat) (acc : List α) (reqs sleeps fuel : Nat),
      n + 1 ≤ fuel →
      (∀ i, i < n → src (page + i) = .ok (pages (page + i)) ∧ pages (page + i) ≠ []) →
      src (page + n) = .error e →
      fetchPagesGo src fuel page acc reqs sleeps = some ⟨.error e, reqs + n + 1, sleeps + n⟩ := by
  intro n
  induction n with
  | zero =>
    intro page acc reqs sleeps fuel hfuel hok herr
    obtain ⟨f, rfl⟩ : ∃ f, fuel = f + 1 := ⟨fuel - 1, by omega⟩
    rw [Nat.add_zero] at herr
    simp [fetchPagesGo, herr]
  | succ n ih =>
    intro page acc reqs sleeps fuel hfuel hok herr
    obtain ⟨f, rfl⟩ : ∃ f, fuel = f + 1 := ⟨fuel - 1, by omega⟩
    have h0 := hok 0 (Nat.succ_pos n)
    rw [Nat.add_zero] at h0
    have hrec := ih (page + 1) (acc ++ pages page) (reqs + 1) (sleeps + 1) f (by omega)
      (fun i hi => by
        have := hok (i + 1) (by omega)
        have harith : page + (i + 1) = page + 1 + i := by omega
        rwa [harith] at this)
      (by
        have harith : page + 1 + n = page + (n + 1) := by omega
        rw [harith]
        exact herr)
    simp only [fetchPagesGo, h0.1]
    rw [if_neg (by simpa [List.isEmpty_iff] using h0.2)]
    rw [hrec]
    simp only [Option.some.injEq, FetchOutcome.mk.injEq]
    refine ⟨trivial, by omega, by omega⟩

/-- In every terminating run of the pagination loop the number of requests
made exceeds the number of sleeps performed by exactly the difference at
entry plus one: only the terminating fetch (empty page or error) is not
followed by a sleep. -/
theorem fetchPagesGo_requests_sleeps {α : Type} (src : Nat → Except TransportError (List α)) :
    ∀ (fuel page : Nat) (acc : List α) (reqs sleeps : Nat) (o : FetchOutcome α),
      fetchPagesGo src fuel page acc reqs sleeps = some o →
      o.requests + sleeps = reqs + o.sleeps + 1 := by
  intro fuel
  induction fuel with
  | zero => intro page acc reqs sleeps o h; simp [fetchPagesGo] at h
  | succ f ih =>
    intro page acc reqs sleeps o h
    simp only [fetchPagesGo] at h
    cases hsrc : src page with
    | error e =>
      simp only [hsrc] at h
      obtain rfl : (⟨.error e, reqs + 1, sleeps⟩ : FetchOutcome α) = o := by
        simpa using h
      show reqs + 1 + sleeps = reqs + sleeps + 1
      omega
    | ok batch =>
      simp only [hsrc] at h
      by_cases hempty : batch.isEmpty
      · rw [if_pos hempty] at h
        obtain rfl : (⟨.ok acc, reqs + 1, sleeps⟩ : FetchOutcome α) = o := by
          simpa using h
        show reqs + 1 + sleeps = reqs + sleeps + 1
        omega
      · rw [if_neg hempty] at h
        have := ih (page + 1) (acc ++ batch) (reqs + 1) (sleeps + 1) o h
        omega

/-! ### C1: exhaustive in-order pagination -/

/-- C1: starting at page 1 and incrementing by one, the pagination loop
stops exactly at the first empty page, returning the in-order
concatenation of the n non-empty pages after exactly n + 1 requests (in
particular 3 full pages followed by an empty page yield the concatenation
of the 3 pages in order with 4 requests). -/
theorem pagination_collects_pages_in_order {α : Type} (pages : Nat → List α) (n fuel : Nat)
    (hpages : ∀ i, i < n → pages (1 + i) ≠ [])
    (hstop : pages (1 + n) = [])
    (hfuel : n + 1 ≤ fuel) :
    fetchAllCriticalPackages (fun p => .ok (pages p)) fuel =
      some ⟨.ok ((List.range' 1 n).flatMap pages), n + 1, n⟩ := by
  have := fetchPagesGo_ok_run pages n 1 [] 0 0 fuel hfuel hpages hstop
  simpa [fetchAllCriticalPackages] using this

/-- A mocked source with 3 full pages followed by empty pages. -/
def demoPages : Nat → List Nat := fun i => if i ≤ 3 then [i] else []

/-- Concrete instance of C1: the 3-page source yields the concatenation of
its pages in order with exactly 4 requests. -/
theorem pagination_collects_pages_in_order_witness :
    fetchAllCriticalPackages (fun p => .ok (demoPages p)) 4 = some ⟨.ok [1, 2, 3], 4, 3⟩ :=
  pagination_collects_pages_in_order demoPages 3 4 (by decide) (by decide) (by decide)

/-! ### C6: transport errors fatal in pagination, swallowed in version lookup -/

/-- C6: a transport error on any page propagates out of
fetchAllCriticalPackages with no partial-catalog fallback, while
fetchVersionNumbers swallows a failing fetch into an empty version list
(the function is total, so it never throws). -/
theorem transport_error_fatal_vs_swallowed :
    (∀ {α : Type} (src : Nat → Except TransportError (List α)) (pages : Nat → List α)
        (e : TransportError) (n fuel : Nat),
      (∀ i, i < n → src (1 + i) = .ok (pages (1 + i)) ∧ pages (1 + i) ≠ []) →
      src (1 + n) = .error e →
      n + 1 ≤ fuel →
      fetchAllCriticalPackages src fuel = some ⟨.error e, n + 1, n⟩) ∧
    (∀ (oracle : RegistryRef → String → Except TransportError (List String))
        (ecosystem name : String) (registry : RegistryRef) (e : TransportError),
      ecosystemToRegistry ecosystem = some registry →
      oracle registry name = .error e →
      fetchVersionNumbers oracle ecosystem name = ([], 1)) := by
  constructor
  · intro α src pages e n fuel hok herr hfuel
    have := fetchPagesGo_error_run src pages e n 1 [] 0 0 fuel hfuel hok herr
    simpa [fetchAllCriticalPackages] using this
  · intro oracle ecosystem name registry e hreg herr
    simp [fetchVersionNumbers, hreg, herr]

/-- A source whose third page fails with an HTTP error. -/
def demoErrSrc : Nat → Except TransportError (List Nat) :=
  fun p => if p ≤ 2 then .ok [p] else .error ⟨"HTTP 500"⟩

/-- Concrete instance of C6: the page-3 error aborts pagination after 3
requests with no partial result, and a failing version fetch for a mapped
ecosystem yields the empty list. -/
theorem transport_error_fatal_vs_swallowed_witness :
    fetchAllCriticalPackages demoErrSrc 4 = some ⟨.error ⟨"HTTP 500"⟩, 3, 2⟩ ∧
    fetchVersionNumbers (fun _ _ => .error ⟨"HTTP 503"⟩) "npm" "lodash" = ([], 1) :=
  ⟨transport_error_fatal_vs_swallowed.1 demoErrSrc (fun p => [p]) ⟨"HTTP 500"⟩ 2 4
      (by decide) (by decide) (by decide),
   transport_error_fatal_vs_swallowed.2 (fun _ _ => .error ⟨"HTTP 503"⟩) "npm" "lodash"
      (.str "npmjs.org") ⟨"HTTP 503"⟩ (by decide) rfl⟩

/-! ### C7: inter-request delay placement (corrected)

The claim says the delay runs after every page fetch regardless of
outcome.  In the code the sleep sits after the empty-page break and is
skipped when fetchJson throws, so the terminating fetch — empty page or
failure — is never followed by a delay; only the preceding non-empty
fetches are. -/

/-- C7 counterexample: a source whose first page is already empty makes
one request and sleeps zero times, and a source whose first page fails
also makes one request and sleeps zero times — pagination never delays
after the terminating or failed fetch. -/
theorem delay_skipped_on_terminating_fetch :
    fetchAllCriticalPackages (fun _ => .ok ([] : List Nat)) 1 = some ⟨.ok [], 1, 0⟩ ∧
    fetchAllCriticalPackages (fun _ => (.error ⟨"HTTP 500"⟩ : Except TransportError (List Nat))) 1 =
      some ⟨.error ⟨"HTTP 500"⟩, 1, 0⟩ := by
  constructor
  · rfl
  · rfl

/-- C7 amended: the fixed delay runs after each successful non-empty page
fetch and only there, so every terminating run of the pagination loop
performs exactly one request more than it performs delays — the
terminating fetch (empty page or failure) is not followed by a delay. -/
theorem delay_after_every_nonterminating_fetch {α : Type}
    (src : Nat → Except TransportError (List α)) (fuel : Nat) (o : FetchOutcome α)
    (h : fetchAllCriticalPackages src fuel = some o) :
    o.requests = o.sleeps + 1 := by
  have := fetchPagesGo_requests_sleeps src fuel 1 [] 0 0 o h
  omega

/-- Concrete instance of the amended C7: the empty-source run makes one
request and zero sleeps. -/
theorem delay_after_every_nonterminating_fetch_witness :
    (⟨.ok [], 1, 0⟩ : FetchOutcome Nat).requests = (⟨.ok [], 1, 0⟩ : FetchOutcome Nat).sleeps + 1 :=
  delay_after_every_nonterminating_fetch (fun _ => .ok ([] : List Nat)) 1 ⟨.ok [], 1, 0⟩ rfl

/-! ### C4: advisory filtering (corrected)

Entries without a UUID are skipped and null/empty input is a no-op, as
claimed.  The persisted row count, however, equals the number of DISTINCT
UUIDs among the UUID-bearing entries: the INSERT OR REPLACE keyed by the
unique (package_id, uuid) index collapses duplicate UUIDs, so an input
repeating a UUID persists fewer rows than it has UUID-bearing entries. -/

/-- The advisories rows stored for one package. -/
def advisoriesFor (db : Store) (packageId : Int) : List AdvRow :=
  db.advisories.filter (fun r => r.package_id == packageId)

/-- The uuid column of the advisories rows stored for one package. -/
def advisoryUuidsFor (db : Store) (packageId : Int) : List String :=
  (advisoriesFor db packageId).map AdvRow.uuid

/-- The uuids of the entries insertAdvisoryStep does not skip (non-null
entries with a non-empty uuid), in input order. -/
def keptUuids (l : List (Option AdvisoryInput)) : List String :=
  l.filterMap fun a? =>
    match a? with
    | none => none
    | some a =>
      match a.uuid with
      | none => none
      | some u => if u = "" then none else some u

/-- Modelled from the spec's words "the count of UUID-bearing entries in
the input": the number of entries of the input list that carry a usable
uuid. -/
def specUuidBearingCount (l : List (Option AdvisoryInput)) : Nat :=
  (keptUuids l).length

/-- Effect of one replace-insert on the uuids stored for the package. -/
def replaceUuid (acc : List String) (u : String) : List String :=
  acc.filter (fun v => ! (v == u)) ++ [u]

/-- One insertAdvisoryRow rewrites the package's stored uuid list by
removing the uuid and appending it (INSERT OR REPLACE on the unique
(package_id, uuid) index). -/
theorem advisoryUuidsFor_insertAdvisoryRow (db : Store) (pid : Int) (u : String)
    (a : AdvisoryInput) :
    advisoryUuidsFor (insertAdvisoryRow db pid u a) pid =
      replaceUuid (advisoryUuidsFor db pid) u := by
  unfold advisoryUuidsFor advisoriesFor insertAdvisoryRow replaceUuid
  simp only [List.filter_append, List.map_append, List.filter_filter]
  have hrow : List.filter (fun r => r.package_id == pid) [advisoryRow pid u a] =
      [advisoryRow pid u a] := by
    simp [advisoryRow]
  rw [hrow]
  have hpred : ∀ r : AdvRow,
      ((r.package_id == pid) && ! (r.package_id == pid && r.uuid == u)) =
        ((! (r.uuid == u)) && (r.package_id == pid)) := by
    intro r
    cases hp : (r.package_id == pid) <;> cases hu : (r.uuid == u) <;> simp [hp, hu]
  simp only [hpred]
  rw [← List.filter_filter, List.filter_map]
  simp [advisoryRow, Function.comp_def]

/-- Skipped entries leave the store untouched; kept entries perform the
replace-insert: the loop of insertAdvisories folds replaceUuid over the
kept uuids. -/
theorem advisoryUuidsFor_foldl (pid : Int) :
    ∀ (l : List (Option AdvisoryInput)) (db : Store),
      advisoryUuidsFor (l.foldl (insertAdvisoryStep pid) db) pid =
        (keptUuids l).foldl replaceUuid (advisoryUuidsFor db pid) := by
  intro l
  induction l with
  | nil => intro db; rfl
  | cons a? t ih =>
    intro db
    rw [List.foldl_cons]
    cases a? with
    | none => simpa [keptUuids, insertAdvisoryStep] using ih db
    | some a =>
      cases hu : a.uuid with
      | none =>
        simp only [keptUuids, List.filterMap_cons, hu]
        simpa [keptUuids, insertAdvisoryStep, hu] using ih db
      | some u =>
        by_cases hemp : u = ""
        · simp only [keptUuids, List.filterMap_cons, hu, hemp]
          simpa [keptUuids, insertAdvisoryStep, hu, hemp] using ih db
        · simp only [keptUuids, List.filterMap_cons, hu, if_neg hemp]
          have hstep : insertAdvisoryStep pid db (some a) = insertAdvisoryRow db pid u a := by
            simp [insertAdvisoryStep, hu, hemp]
          rw [hstep]
          have := ih (insertAdvisoryRow db pid u a)
          rw [this, advisoryUuidsFor_insertAdvisoryRow]
          simp [keptUuids]

/-- Folding replaceUuid over a uuid list keeps the stored list duplicate
free and makes its members exactly the start members plus the folded
uuids. -/
theorem replaceUuid_foldl_nodup_toFinset :
    ∀ (ks acc : List String), acc.Nodup →
      (ks.foldl replaceUuid acc).Nodup ∧
      (ks.foldl replaceUuid acc).toFinset = acc.toFinset ∪ ks.toFinset := by
  intro ks
  induction ks with
  | nil => intro acc h; simpa using h
  | cons k t ih =>
    intro acc h
    rw [List.foldl_cons]
    have hstep_nodup : (replaceUuid acc k).Nodup := by
      unfold replaceUuid
      have hfil : (acc.filter (fun v => ! (v == k))).Nodup := h.filter _
      have hnotmem : k ∉ acc.filter (fun v => ! (v == k)) := by
        intro hk
        rw [List.mem_filter] at hk
        simp at hk
      rw [List.nodup_append]
      refine ⟨hfil, List.nodup_singleton k, ?_⟩
      intro a ha hb
      rw [List.mem_singleton] at hb
      subst hb
      exact hnotmem ha
    have hstep_fin : (replaceUuid acc k).toFinset = insert k acc.toFinset := by
      unfold replaceUuid
      ext x
      simp only [List.toFinset_append, Finset.mem_union, List.mem_toFinset, List.mem_filter,
        List.mem_singleton, Finset.mem_insert]
      constructor
      · rintro (⟨hxa, _⟩ | hxk)
        · exact Or.inr hxa
        · exact Or.inl hxk
      · intro hx
        by_cases hxk : x = k
        · exact Or.inr hxk
        · rcases hx with hk | hmem
          · exact absurd hk hxk
          · exact Or.inl ⟨hmem, by simp [hxk]⟩
    obtain ⟨hn, hf⟩ := ih (replaceUuid acc k) hstep_nodup
    refine ⟨hn, ?_⟩
    rw [hf, hstep_fin, List.toFinset_cons]
    ext x
    simp

/-- A concrete advisory list with two entries sharing a UUID and one entry
without one. -/
def demoDupAdvisories : List (Option AdvisoryInput) :=
  [some { uuid := some "GHSA-aaaa", severity := some "high" },
   some { title := some "no uuid here" },
   some { uuid := some "GHSA-aaaa", severity := some "critical" }]

/-- C4 counterexample: on an input with two UUID-bearing entries sharing a
UUID, only one advisory row persists, while the count of UUID-bearing
entries is two — the persisted count does not equal the UUID-bearing
count. -/
theorem advisory_count_mismatch_on_duplicate_uuid :
    (advisoriesFor (insertAdvisories emptyStore 1 (some demoDupAdvisories)) 1).length = 1 ∧
    specUuidBearingCount demoDupAdvisories = 2 ∧ (1 : Nat) ≠ 2 := by
  refine ⟨rfl, rfl, by simp⟩

/-- C4 amended: upsertAdvisories is a no-op on null or empty input, skips
entries without a usable UUID, and — starting from a store holding no
advisories for the package — persists exactly one row per DISTINCT UUID
among the UUID-bearing entries: the stored uuids are precisely the kept
uuids, without duplicates, and the persisted row count equals the number
of distinct kept uuids. -/
theorem advisories_only_uuid_bearing_persist :
    (∀ (db : Store) (pid : Int), insertAdvisories db pid none = db) ∧
    (∀ (db : Store) (pid : Int), insertAdvisories db pid (some []) = db) ∧
    (∀ (db : Store) (pid : Int) (l : List (Option AdvisoryInput)),
      advisoriesFor db pid = [] →
      (advisoryUuidsFor (insertAdvisories db pid (some l)) pid).toFinset =
          (keptUuids l).toFinset ∧
        (advisoryUuidsFor (insertAdvisories db pid (some l)) pid).Nodup ∧
        (advisoriesFor (insertAdvisories db pid (some l)) pid).length =
          (keptUuids l).dedup.length) := by
  refine ⟨fun db pid => rfl, fun db pid => rfl, ?_⟩
  intro db pid l hempty
  have hbase : advisoryUuidsFor db pid = [] := by
    unfold advisoryUuidsFor
    rw [hempty]
    rfl
  have hfold : advisoryUuidsFor (insertAdvisories db pid (some l)) pid =
      (keptUuids l).foldl replaceUuid [] := by
    have hred : insertAdvisories db pid (some l) =
        if l.isEmpty then db else l.foldl (insertAdvisoryStep pid) db := rfl
    rw [hred]
    by_cases hl : l.isEmpty
    · rw [if_pos hl]
      have : l = [] := List.isEmpty_iff.mp hl
      subst this
      simpa [keptUuids] using hbase
    · rw [if_neg hl]
      rw [advisoryUuidsFor_foldl pid l db, hbase]
  obtain ⟨hnodup, hfin⟩ := replaceUuid_foldl_nodup_toFinset (keptUuids l) [] List.nodup_nil
  have hlen : (advisoriesFor (insertAdvisories db pid (some l)) pid).length =
      (advisoryUuidsFor (insertAdvisories db pid (some l)) pid).length := by
    unfold advisoryUuidsFor
    rw [List.length_map]
  constructor
  · rw [hfold, hfin]
    simp
  constructor
  · rw [hfold]
    exact hnodup
  · rw [hlen, hfold]
    have h1 : ((keptUuids l).foldl replaceUuid []).length =
        ((keptUuids l).foldl replaceUuid []).toFinset.card :=
      (List.toFinset_card_of_nodup hnodup).symm
    rw [h1, hfin]
    simp [List.card_toFinset]

/-- Concrete instance of the amended C4: a five-entry input with two
usable uuids, one null entry, one missing uuid and one empty uuid
persists exactly the two usable uuids. -/
def demoMixedAdvisories : List (Option AdvisoryInput) :=
  [some { uuid := some "GHSA-aaaa" },
   some { title := some "no uuid" },
   none,
   some { uuid := some "" },
   some { uuid := some "GHSA-bbbb" }]

theorem advisories_only_uuid_bearing_persist_witness :
    insertAdvisories emptyStore 5 none = emptyStore ∧
    insertAdvisories emptyStore 5 (some []) = emptyStore ∧
    ((advisoryUuidsFor (insertAdvisories emptyStore 5 (some demoMixedAdvisories)) 5).toFinset =
        (keptUuids demoMixedAdvisories).toFinset ∧
      (advisoryUuidsFor (insertAdvisories emptyStore 5 (some demoMixedAdvisories)) 5).Nodup ∧
      (advisoriesFor (insertAdvisories emptyStore 5 (some demoMixedAdvisories)) 5).length =
        (keptUuids demoMixedAdvisories).dedup.length) :=
  ⟨advisories_only_uuid_bearing_persist.1 emptyStore 5,
   advisories_only_uuid_bearing_persist.2.1 emptyStore 5,
   advisories_only_uuid_bearing_persist.2.2 emptyStore 5 demoMixedAdvisories rfl⟩

/-! ### C5: full-text projection stays synchronized -/

/-- Unfolding equation of applyMutation for an update mutation. -/
theorem applyMutation_upd (s : FtsState) (i : Int) (row : PkgRow) :
    applyMutation s (.upd i row) =
      if s.packages.any (fun r => r.id == i) then
        { packages := s.packages.filter (fun r => ! (r.id == i)) ++ [row]
          packages_fts :=
            s.packages_fts.filter (fun f => ! (f.rowid == i)) ++ [ftsProjection row] }
      else s := rfl

/-- Each single mutation of the packages table, together with its trigger,
preserves consistency of the packages_fts projection. -/
theorem ftsConsistent_applyMutation (s : FtsState) (m : PkgMutation)
    (h : ftsConsistent s) : ftsConsistent (applyMutation s m) := by
  cases m with
  | ins row =>
    unfold ftsConsistent applyMutation
    simp only [List.map_append, List.map_cons, List.map_nil]
    rw [← h]
  | del i =>
    unfold ftsConsistent applyMutation
    simp only []
    rw [h, List.filter_map]
    rfl
  | upd i row =>
    rw [ftsConsistent, applyMutation_upd]
    by_cases hany : s.packages.any (fun r => r.id == i)
    · rw [if_pos hany]
      simp only [List.map_append, List.map_cons, List.map_nil]
      rw [h, List.filter_map]
      rfl
    · rw [if_neg hany]
      exact h

/-- Consistency is preserved by any sequence of mutations. -/
theorem ftsConsistent_applyMutations :
    ∀ (ms : List PkgMutation) (s : FtsState), ftsConsistent s →
      ftsConsistent (applyMutations s ms) := by
  intro ms
  induction ms with
  | nil => intro s h; exact h
  | cons m t ih =>
    intro s h
    rw [applyMutations, List.foldl_cons]
    exact ih (applyMutation s m) (ftsConsistent_applyMutation s m h)

/-- In a consistent state, a search over the projection for a token that
no stored package row contains returns nothing. -/
theorem ftsSearch_nil_of_no_match (s : FtsState) (token : String)
    (hc : ftsConsistent s)
    (hnone : ∀ r ∈ s.packages, token ∉ ftsRowTokens (ftsProjection r)) :
    ftsSearch token s.packages_fts = [] := by
  unfold ftsSearch
  rw [hc]
  have : List.filter (fun f => decide (token ∈ ftsRowTokens f)) (s.packages.map ftsProjection)
      = [] := by
    rw [List.filter_eq_nil_iff]
    intro f hf
    rw [List.mem_map] at hf
    obtain ⟨r, hr, rfl⟩ := hf
    simpa using hnone r hr
  rw [this]
  rfl

/-- C5: starting from the empty store, any sequence of insert, delete and
update mutations of the packages table leaves packages_fts holding exactly
the (rowid, ecosystem, name, description, keywords) projection of the
packages rows (the triggers keep the derived table synchronized and
pipeline code never writes it directly); in a consistent state a search
for a token present in a stored package's keywords or description returns
that package's rowid; and after an update that removes the token from the
only row containing it, the same search returns nothing. -/
theorem fulltext_projection_synchronized :
    (∀ ms : List PkgMutation,
      ftsConsistent (applyMutations { packages := [], packages_fts := [] } ms)) ∧
    (∀ (s : FtsState) (r : PkgRow) (token : String),
      ftsConsistent s → r ∈ s.packages →
      (token ∈ optFieldTokens r.keywords ∨ token ∈ optFieldTokens r.description) →
      r.id ∈ ftsSearch token s.packages_fts) ∧
    (∀ (s : FtsState) (i : Int) (row : PkgRow) (token : String),
      ftsConsistent s →
      (∀ r ∈ s.packages, r.id ≠ i → token ∉ ftsRowTokens (ftsProjection r)) →
      token ∉ ftsRowTokens (ftsProjection row) →
      ftsSearch token (applyMutation s (.upd i row)).packages_fts = []) := by
  refine ⟨?_, ?_, ?_⟩
  · intro ms
    exact ftsConsistent_applyMutations ms _ rfl
  · intro s r token hc hr htok
    have hmem : ftsProjection r ∈ s.packages_fts := by
      rw [hc]
      exact List.mem_map_of_mem ftsProjection hr
    have htok' : token ∈ ftsRowTokens (ftsProjection r) := by
      unfold ftsRowTokens ftsProjection
      rcases htok with hk | hd
      · simp only [List.mem_append]
        exact Or.inr hk
      · simp only [List.mem_append]
        exact Or.inl (Or.inr hd)
    unfold ftsSearch
    rw [List.mem_map]
    refine ⟨ftsProjection r, ?_, rfl⟩
    rw [List.mem_filter]
    exact ⟨hmem, by simpa using htok'⟩
  · intro s i row token hc hothers hrow
    have hcons' : ftsConsistent (applyMutation s (.upd i row)) :=
      ftsConsistent_applyMutation s _ hc
    apply ftsSearch_nil_of_no_match _ token hcons'
    intro r hr
    rw [applyMutation_upd] at hr
    by_cases hany : s.packages.any (fun x => x.id == i)
    · rw [if_pos hany] at hr
      simp only [List.mem_append, List.mem_singleton] at hr
      rcases hr with hmem | rfl
      · rw [List.mem_filter] at hmem
        refine hothers r hmem.1 ?_
        have := hmem.2
        simp at this
        exact this
      · exact hrow
    · rw [if_neg hany] at hr
      rw [Bool.not_eq_true, List.any_eq_false] at hany
      refine hothers r hr ?_
      have := hany r hr
      simpa using this

/-- A package row whose keywords contain the token "utility". -/
def demoFtsPkg : PkgRow :=
  packageRow
    { id := 1, ecosystem := "npm", name := "demo", description := some "array helpers",
      keywords_array := some ["array", "utility"] }

/-- The same package after an update dropping the "utility" keyword. -/
def demoFtsPkgUpdated : PkgRow :=
  packageRow
    { id := 1, ecosystem := "npm", name := "demo", description := some "array helpers",
      keywords_array := some ["array"] }

/-- The state holding the keyword-bearing package. -/
def demoFtsState : FtsState :=
  applyMutations { packages := [], packages_fts := [] } [.ins demoFtsPkg]

/-- Concrete instance of C5: after inserting the package the projection is
consistent and a search for "utility" finds rowid 1; after the update that
drops the keyword the same search returns nothing. -/
theorem fulltext_projection_synchronized_witness :
    ftsConsistent (applyMutations { packages := [], packages_fts := [] }
      [.ins demoFtsPkg, .upd 1 demoFtsPkgUpdated]) ∧
    demoFtsPkg.id ∈ ftsSearch "utility" demoFtsState.packages_fts ∧
    ftsSearch "utility" (applyMutation demoFtsState (.upd 1 demoFtsPkgUpdated)).packages_fts = [] :=
  ⟨fulltext_projection_synchronized.1 [.ins demoFtsPkg, .upd 1 demoFtsPkgUpdated],
   fulltext_projection_synchronized.2.1 demoFtsState demoFtsPkg "utility" (by exact rfl)
     (by decide) (by decide),
   fulltext_projection_synchronized.2.2 demoFtsState 1 demoFtsPkgUpdated "utility" (by exact rfl)
     (by decide) (by decide)⟩

/-! ### C9: build_info written once, last, with the final counts -/

/-- C9: the singleton build-info row is written exactly once as the final
write of the build, so its counts equal the row counts of the finished
store; for the one-package catalog whose version lookup yields two
version strings, the store ends with one package row, the two version
rows keyed to package 1, and build-info counts (1, 2, 0). -/
theorem build_info_final_counts :
    (∀ (catalog : List PkgRecord)
        (oracle : RegistryRef → String → Except TransportError (List String))
        (fetchVersionsData : Bool) (builtAt : String),
      (buildStore catalog oracle fetchVersionsData builtAt).build_info =
        some { built_at := builtAt
               package_count := (buildStore catalog oracle fetchVersionsData builtAt).packages.length
               version_count := (buildStore catalog oracle fetchVersionsData builtAt).versions.length
               advisory_count :=
                 (buildStore catalog oracle fetchVersionsData builtAt).advisories.length }) ∧
    (∀ builtAt : String,
      (buildStore [{ id := 1, ecosystem := "npm", name := "lodash" }]
          (fun _ _ => .ok ["4.17.21", "4.17.20"]) true builtAt).packages.length = 1 ∧
      (buildStore [{ id := 1, ecosystem := "npm", name := "lodash" }]
          (fun _ _ => .ok ["4.17.21", "4.17.20"]) true builtAt).versions =
        [(1, "4.17.21"), (1, "4.17.20")] ∧
      (buildStore [{ id := 1, ecosystem := "npm", name := "lodash" }]
          (fun _ _ => .ok ["4.17.21", "4.17.20"]) true builtAt).build_info =
        some { built_at := builtAt, package_count := 1, version_count := 2,
               advisory_count := 0 }) := by
  constructor
  · intro catalog oracle fetchVersionsData builtAt
    rfl
  · intro builtAt
    refine ⟨rfl, rfl, rfl⟩

/-! ### C10: ecosystem-to-registry mapping (corrected)

The lookup is case-insensitive and the table has exactly 16 ecosystems,
as claimed; but "every string outside that set maps to null" fails:
map[key] on a JavaScript object literal also reaches the members the
literal inherits from Object.prototype, so lowercased names such as
"constructor" or "toString" produce a truthy non-registry value, and
fetchVersionNumbers then does issue a (failing) request for them. -/

/-- Applying Char.toLower twice is the same as applying it once: the
result of one application is never an ASCII upper-case letter. -/
theorem char_toLower_idempotent (c : Char) : c.toLower.toLower = c.toLower := by
  show Char.toLower (Char.toLower c) = Char.toLower c
  simp only [Char.toLower]
  by_cases h : c.toNat ≥ 65 ∧ c.toNat ≤ 90
  · rw [if_pos h]
    have hvalid : (c.toNat + 32).isValidChar := Or.inl (by omega)
    have htn : (Char.ofNat (c.toNat + 32)).toNat = c.toNat + 32 := by
      unfold Char.ofNat
      rw [dif_pos hvalid]
      rfl
    rw [htn]
    rw [if_neg (by omega)]
  · rw [if_neg h, if_neg h]

/-- Lower-casing a string twice equals lower-casing it once. -/
theorem jsToLowerCase_idempotent (s : String) :
    jsToLowerCase (jsToLowerCase s) = jsToLowerCase s := by
  unfold jsToLowerCase
  have hdata : (String.mk (s.data.map Char.toLower)).data = s.data.map Char.toLower := rfl
  rw [hdata, List.map_map]
  have hcomp : Char.toLower ∘ Char.toLower = Char.toLower :=
    funext char_toLower_idempotent
  rw [hcomp]

/-- An association-list lookup misses every key that is not among the
stored keys. -/
theorem lookup_eq_none_of_not_mem_keys {β : Type} (key : String) :
    ∀ l : List (String × β), key ∉ l.map Prod.fst → l.lookup key = none := by
  intro l
  induction l with
  | nil => intro _; rfl
  | cons p t ih =>
    intro hmem
    have hne : (key == p.1) = false := by
      simp only [List.map_cons, List.mem_cons] at hmem
      have : key ≠ p.1 := fun h => hmem (Or.inl h)
      simpa using this
    obtain ⟨a, b⟩ := p
    rw [List.lookup_cons]
    simp only at hne
    rw [hne]
    exact ih fun h => hmem (List.mem_cons_of_mem _ h)

/-- C10 counterexample: the lowercased name "constructor" is outside the
16-ecosystem table, yet ecosystemToRegistry returns the truthy inherited
Object.prototype member rather than the no-mapping value, and
fetchVersionNumbers consequently issues one (failing) request for it
instead of returning without a request. -/
theorem registry_lookup_prototype_counterexample :
    ecosystemToRegistry "constructor" = some (.inherited "constructor") ∧
    fetchVersionNumbers (fun _ _ => .error ⟨"HTTP 404"⟩) "constructor" "anything" = ([], 1) := by
  exact ⟨rfl, rfl⟩

/-- C10 amended: the mapping is case-insensitive and holds exactly 16
ecosystems; a string whose lowercased form is neither a table key nor an
inherited Object.prototype property name maps to the no-mapping value,
which makes fetchVersionNumbers return an empty sequence with no request
issued; but a lowercased form that collides with an inherited
Object.prototype property name yields that truthy non-registry member
instead of null. -/
theorem ecosystem_registry_mapping :
    (∀ s : String, ecosystemToRegistry s = ecosystemToRegistry (jsToLowerCase s)) ∧
    registryMap.length = 16 ∧
    (∀ s : String, jsToLowerCase s ∉ registryMap.map Prod.fst →
      jsToLowerCase s ∉ objectPrototypeKeys →
      ecosystemToRegistry s = none) ∧
    (∀ (oracle : RegistryRef → String → Except TransportError (List String)) (s name : String),
      ecosystemToRegistry s = none →
      fetchVersionNumbers oracle s name = ([], 0)) ∧
    (∀ s : String, jsToLowerCase s ∈ objectPrototypeKeys →
      ecosystemToRegistry s = some (.inherited (jsToLowerCase s))) := by
  refine ⟨?_, rfl, ?_, ?_, ?_⟩
  · intro s
    unfold ecosystemToRegistry
    rw [jsToLowerCase_idempotent]
  · intro s hkeys hproto
    have hl : registryMap.lookup (jsToLowerCase s) = none :=
      lookup_eq_none_of_not_mem_keys (jsToLowerCase s) registryMap hkeys
    simp only [ecosystemToRegistry, hl]
    rw [if_neg hproto]
  · intro oracle s name hnone
    simp [fetchVersionNumbers, hnone]
  · intro s hproto
    have hdisj : jsToLowerCase s ∉ registryMap.map Prod.fst := by
      intro hmem
      have : ∀ k ∈ objectPrototypeKeys, k ∉ registryMap.map Prod.fst := by decide
      exact this (jsToLowerCase s) hproto hmem
    have hl : registryMap.lookup (jsToLowerCase s) = none :=
      lookup_eq_none_of_not_mem_keys (jsToLowerCase s) registryMap hdisj
    simp only [ecosystemToRegistry, hl]
    rw [if_pos hproto]

/-- Concrete instance of the amended C10: "NPM" resolves like its
lowercase form, "fortran" maps to null and causes no request, and the
prototype-colliding name "__proto__" yields the inherited member. -/
theorem ecosystem_registry_mapping_witness :
    ecosystemToRegistry "NPM" = ecosystemToRegistry (jsToLowerCase "NPM") ∧
    ecosystemToRegistry "fortran" = none ∧
    fetchVersionNumbers (fun _ _ => .ok ["1.0.0"]) "fortran" "x" = ([], 0) ∧
    ecosystemToRegistry "__proto__" = some (.inherited (jsToLowerCase "__proto__")) :=
  ⟨ecosystem_registry_mapping.1 "NPM",
   ecosystem_registry_mapping.2.2.1 "fortran" (by decide) (by decide),
   ecosystem_registry_mapping.2.2.2.1 (fun _ _ => .ok ["1.0.0"]) "fortran" "x"
     (ecosystem_registry_mapping.2.2.1 "fortran" (by decide) (by decide)),
   ecosystem_registry_mapping.2.2.2.2 "__proto__" (by decide)⟩

end Critical
